import Mathlib

/-!
Verification development for the pixery generation-job orchestrator and
content-addressed catalog (Rust sources under `src-tauri/src`).

The SQLite-backed `Database` (db.rs) is embedded as a pure record of tables
(lists of rows) plus AUTOINCREMENT counters; each Rust method becomes a pure
function from the database value (and any clock readings the method takes via
`chrono`, hoisted to explicit string arguments) to an updated value and result.
Text columns are `String`, REAL cost/duration columns are `Rat` (the claims
only exercise values on which IEEE doubles are exact), and SQL `NULL` is
`Option`. SQLite compares TEXT by byte order, embedded as codepoint-wise
lexicographic comparison (equivalent on UTF-8).

External effects (the network provider call, the image codec, the filesystem,
the SHA-256 primitive from the `sha2` crate and the transliteration table of
the `slug` crate) are parameters of the embedded workflow functions; every
claim below is proved for all values of those parameters.
-/

/-- Codepoint-wise lexicographic strict order on char lists; on UTF-8 encoded
strings this coincides with byte-wise comparison, which is how SQLite compares
TEXT values. -/
def charListLt : List Char → List Char → Bool
  | _, [] => false
  | [], _ :: _ => true
  | a :: as, b :: bs =>
    if a.toNat < b.toNat then true
    else if b.toNat < a.toNat then false
    else charListLt as bs

/-- SQLite `<` on TEXT values. -/
def strLtB (a b : String) : Bool := charListLt a.data b.data

/-- SQLite `>=` on TEXT values. -/
def strGeB (a b : String) : Bool := !strLtB a b

/-- ASCII lowercasing of a char, identity elsewhere; models SQLite's
ASCII-only case folding used by `LIKE`. -/
def asciiLowerChar (c : Char) : Char :=
  if 65 ≤ c.toNat && c.toNat ≤ 90 then Char.ofNat (c.toNat + 32) else c

/-- ASCII-lowercase a char list. -/
def asciiLower (l : List Char) : List Char := l.map asciiLowerChar

/-- Substring test on char lists (does `pat` occur contiguously in `l`). -/
def listContainsSub (l pat : List Char) : Bool :=
  (List.range (l.length + 1)).any (fun i => pat.isPrefixOf (l.drop i))

/-- SQLite `prompt LIKE '%search%'` as built by `list_generations`: ASCII
case-insensitive substring containment. (A `%` or `_` inside the user's search
text would act as a further wildcard in SQLite; no claim exercises that.) -/
def likeContains (text pat : String) : Bool :=
  listContainsSub (asciiLower text.data) (asciiLower pat.data)

/-- Model of Rust `str::to_lowercase` restricted to the ASCII portion of the
Unicode mapping (sufficient here: the strings it is compared against are ASCII
keywords). -/
def rustLowercase (s : String) : String := ⟨s.data.map asciiLowerChar⟩

instance {ε α : Type} [DecidableEq ε] [DecidableEq α] : DecidableEq (Except ε α) := fun a b =>
  match a, b with
  | .ok x, .ok y => if h : x = y then .isTrue (by rw [h]) else .isFalse (by simp [h])
  | .error x, .error y => if h : x = y then .isTrue (by rw [h]) else .isFalse (by simp [h])
  | .ok _, .error _ => .isFalse (by simp)
  | .error _, .ok _ => .isFalse (by simp)

/-! ## Data model (models.rs) -/

/-- Job status enum (`models.rs::JobStatus`). -/
inductive JobStatus where
  | pending
  | running
  | completed
  | failed
deriving DecidableEq, Repr

/-- Display serialization of `JobStatus` (`impl Display for JobStatus`). -/
def JobStatus.toStr : JobStatus → String
  | .pending => "pending"
  | .running => "running"
  | .completed => "completed"
  | .failed => "failed"

/-- Parse of `JobStatus` (`impl FromStr for JobStatus`): lowercases, then
matches the four known strings; anything else is a parse error (`none`). -/
def JobStatus.fromStr (s : String) : Option JobStatus :=
  match rustLowercase s with
  | "pending" => some .pending
  | "running" => some .running
  | "completed" => some .completed
  | "failed" => some .failed
  | _ => none

/-- Job source enum (`models.rs::JobSource`). -/
inductive JobSource where
  | cli
  | gui
deriving DecidableEq, Repr

/-- Display serialization of `JobSource`. -/
def JobSource.toStr : JobSource → String
  | .cli => "cli"
  | .gui => "gui"

/-- Parse of `JobSource` (`impl FromStr for JobSource`). -/
def JobSource.fromStr (s : String) : Option JobSource :=
  match rustLowercase s with
  | "cli" => some .cli
  | "gui" => some .gui
  | _ => none

/-- Provider enum (`models.rs::Provider`). -/
inductive Provider where
  | gemini
  | fal
  | openai
  | selfhosted
deriving DecidableEq, Repr

/-- Display serialization of `Provider`. -/
def Provider.toStr : Provider → String
  | .gemini => "gemini"
  | .fal => "fal"
  | .openai => "openai"
  | .selfhosted => "selfhosted"

/-- Static model metadata (`models.rs::ModelInfo`). -/
structure ModelInfo where
  id : String
  provider : Provider
  display_name : String
  cost_per_image : Rat
  max_refs : Nat
deriving DecidableEq, Repr

/-- The static model table (`ModelInfo::all`). -/
def ModelInfo.all : List ModelInfo :=
  [ { id := "gemini-flash", provider := .gemini, display_name := "Gemini 2.5 Flash",
      cost_per_image := 39/1000, max_refs := 10 },
    { id := "gemini-pro", provider := .gemini, display_name := "Gemini 3 Pro",
      cost_per_image := 134/1000, max_refs := 10 },
    { id := "fal-ai/flux/schnell", provider := .fal, display_name := "FLUX Schnell",
      cost_per_image := 3/1000, max_refs := 0 },
    { id := "fal-ai/flux-pro/v1.1", provider := .fal, display_name := "FLUX Pro 1.1",
      cost_per_image := 5/100, max_refs := 0 },
    { id := "fal-ai/flux-pro/v1.1-ultra", provider := .fal, display_name := "FLUX Pro 1.1 Ultra",
      cost_per_image := 6/100, max_refs := 0 },
    { id := "fal-ai/recraft-v3", provider := .fal, display_name := "Recraft V3",
      cost_per_image := 4/100, max_refs := 0 },
    { id := "fal-ai/z-image/turbo", provider := .fal, display_name := "Z-Image Turbo",
      cost_per_image := 5/1000, max_refs := 1 },
    { id := "dall-e-3", provider := .openai, display_name := "DALL-E 3",
      cost_per_image := 4/100, max_refs := 0 },
    { id := "gpt-image-1", provider := .openai, display_name := "GPT Image 1",
      cost_per_image := 2/100, max_refs := 0 },
    { id := "animagine", provider := .selfhosted, display_name := "Animagine XL 4.0 (Local)",
      cost_per_image := 0, max_refs := 1 },
    { id := "pony", provider := .selfhosted, display_name := "Pony Diffusion V6 (Local)",
      cost_per_image := 0, max_refs := 1 },
    { id := "noobai", provider := .selfhosted, display_name := "NoobAI XL (Local)",
      cost_per_image := 0, max_refs := 1 } ]

/-- Model lookup by id (`ModelInfo::find`). -/
def ModelInfo.find (model_id : String) : Option ModelInfo :=
  ModelInfo.all.find? (fun m => m.id == model_id)

/-- Row of the `generations` table (schema in db.rs). -/
structure GenRow where
  id : Int
  slug : String
  prompt : String
  model : String
  provider : String
  timestamp : String
  date : String
  image_path : String
  thumb_path : Option String
  generation_time_seconds : Option Rat
  cost_estimate_usd : Option Rat
  seed : Option String
  width : Option Int
  height : Option Int
  file_size : Option Int
  parent_id : Option Int
  starred : Bool
  created_at : String
  trashed_at : Option String
  title : Option String
  negative_prompt : Option String
deriving DecidableEq, Repr

/-- Row of the `tags` table. -/
structure TagRow where
  id : Int
  name : String
deriving DecidableEq, Repr

/-- Row of the `refs` table; also the hydrated `models.rs::Reference`. -/
structure Reference where
  id : Int
  hash : String
  path : String
  created_at : String
deriving DecidableEq, Repr

/-- Row of the `generation_jobs` table. `status` and `source` are TEXT columns
(parsed into enums only on read, by `parse_job_row`); `tags` is a JSON-encoded
optional string list, embedded structurally as the list it encodes. -/
structure JobRow where
  id : Int
  status : String
  model : String
  prompt : String
  tags : Option (List String)
  source : String
  ref_count : Int
  created_at : String
  started_at : Option String
  completed_at : Option String
  generation_id : Option Int
  error : Option String
deriving DecidableEq, Repr

/-- The embedded database: each table as a list of rows, plus the next
AUTOINCREMENT rowid per table with one. `genTags`, `genRefs` and
`genCollections` are the join tables as (generation_id, other_id) pairs. -/
structure DB where
  gens : List GenRow := []
  tags : List TagRow := []
  genTags : List (Int × Int) := []
  refs : List Reference := []
  genRefs : List (Int × Int) := []
  genCollections : List (Int × Int) := []
  jobs : List JobRow := []
  nextGenId : Int := 1
  nextTagId : Int := 1
  nextRefId : Int := 1
  nextJobId : Int := 1
deriving DecidableEq, Repr

/-- Hydrated generation record (`models.rs::Generation`). -/
structure Generation where
  id : Int
  slug : String
  prompt : String
  model : String
  provider : String
  timestamp : String
  date : String
  image_path : String
  thumb_path : Option String
  generation_time_seconds : Option Rat
  cost_estimate_usd : Option Rat
  seed : Option String
  width : Option Int
  height : Option Int
  file_size : Option Int
  parent_id : Option Int
  starred : Bool
  created_at : String
  trashed_at : Option String
  title : Option String
  negative_prompt : Option String
  tags : List String
  references : List Reference
deriving DecidableEq, Repr

/-- Parsed job record (`models.rs::Job`). -/
structure Job where
  id : Int
  status : JobStatus
  model : String
  prompt : String
  tags : Option (List String)
  source : JobSource
  ref_count : Int
  created_at : String
  started_at : Option String
  completed_at : Option String
  generation_id : Option Int
  error : Option String
deriving DecidableEq, Repr

/-- Cost aggregation result (`models.rs::CostSummary`). -/
structure CostSummary where
  total_usd : Rat
  by_model : List (String × Rat)
  by_day : List (String × Rat)
  count : Int
deriving DecidableEq, Repr

/-- Query filter (`models.rs::ListFilter`), with the same defaults as
`#[derive(Default)]`. -/
structure ListFilter where
  limit : Option Int := none
  offset : Option Int := none
  tags : Option (List String) := none
  exclude_tags : Option (List String) := none
  model : Option String := none
  starred_only : Bool := false
  search : Option String := none
  since : Option String := none
  collection_id : Option Int := none
  show_trashed : Bool := false
  uncategorized : Bool := false
deriving DecidableEq, Repr

/-- Provider call result (`models.rs::GenerationResult`); `image_data` are the
raw image bytes. -/
structure GenerationResult where
  image_data : List Nat
  seed : Option String
  generation_time_seconds : Rat
  cost_usd : Option Rat
deriving DecidableEq, Repr

/-! ## Catalog operations (db.rs) -/

/-- Join `SELECT t.name FROM tags t JOIN generation_tags gt ON t.id = gt.tag_id
WHERE gt.generation_id = ?` (`Database::get_tags_for_generation`). -/
def get_tags_for_generation (db : DB) (generation_id : Int) : List String :=
  ((db.genTags.filter (fun p => p.1 == generation_id)).map
    (fun p => (db.tags.filter (fun t => t.id == p.2)).map (fun t => t.name))).flatten

/-- Join `SELECT r.* FROM refs r JOIN generation_refs gr ON r.id = gr.ref_id
WHERE gr.generation_id = ?` (`Database::get_references_for_generation`). -/
def get_references_for_generation (db : DB) (generation_id : Int) : List Reference :=
  ((db.genRefs.filter (fun p => p.1 == generation_id)).map
    (fun p => db.refs.filter (fun r => r.id == p.2))).flatten

/-- Hydrate a `generations` row into a `Generation` with its tags and
references, as `get_generation`/`list_generations` do after the row query. -/
def hydrate (db : DB) (g : GenRow) : Generation :=
  { id := g.id, slug := g.slug, prompt := g.prompt, model := g.model,
    provider := g.provider, timestamp := g.timestamp, date := g.date,
    image_path := g.image_path, thumb_path := g.thumb_path,
    generation_time_seconds := g.generation_time_seconds,
    cost_estimate_usd := g.cost_estimate_usd, seed := g.seed,
    width := g.width, height := g.height, file_size := g.file_size,
    parent_id := g.parent_id, starred := g.starred, created_at := g.created_at,
    trashed_at := g.trashed_at, title := g.title,
    negative_prompt := g.negative_prompt,
    tags := get_tags_for_generation db g.id,
    references := get_references_for_generation db g.id }

/-- Insert into `generations` (`Database::insert_generation`). `dbNow` is the
SQLite `CURRENT_TIMESTAMP` filled into the `created_at` default. Returns the
updated database and `last_insert_rowid`. -/
def insert_generation (db : DB) (dbNow : String)
    (slug prompt model provider timestamp date image_path : String)
    (thumb_path : Option String) (generation_time : Option Rat)
    (cost : Option Rat) (seed : Option String) (width height : Option Int)
    (file_size : Option Int) (parent_id : Option Int)
    (negative_prompt : Option String) : DB × Int :=
  let row : GenRow :=
    { id := db.nextGenId, slug := slug, prompt := prompt, model := model,
      provider := provider, timestamp := timestamp, date := date,
      image_path := image_path, thumb_path := thumb_path,
      generation_time_seconds := generation_time, cost_estimate_usd := cost,
      seed := seed, width := width, height := height, file_size := file_size,
      parent_id := parent_id, starred := false, created_at := dbNow,
      trashed_at := none, title := none, negative_prompt := negative_prompt }
  ({ db with gens := db.gens ++ [row], nextGenId := db.nextGenId + 1 }, db.nextGenId)

/-- Lookup and hydrate one generation by id (`Database::get_generation`). -/
def get_generation (db : DB) (id : Int) : Option Generation :=
  (db.gens.find? (fun g => g.id == id)).map (hydrate db)

/-- The conjunction of WHERE-clause conditions `list_generations` builds for a
filter, evaluated on one `generations` row. Conditions appear in the source's
order: trash visibility, collection membership, uncategorized, multi-tag AND
(group-by / COUNT(DISTINCT name) = list length), tag exclusion, model
equality, starred, prompt LIKE search, and date lower bound. -/
def genMatches (db : DB) (filter : ListFilter) (g : GenRow) : Bool :=
  (if filter.show_trashed then g.trashed_at.isSome else g.trashed_at.isNone)
  && (match filter.collection_id with
      | some cid => db.genCollections.contains (g.id, cid)
      | none => true)
  && (!filter.uncategorized || !(db.genCollections.any (fun p => p.1 == g.id)))
  && (match filter.tags with
      | some ts =>
        ts.isEmpty
        || (((get_tags_for_generation db g.id).filter (fun n => ts.contains n)).dedup.length
            == ts.length)
      | none => true)
  && (match filter.exclude_tags with
      | some ts =>
        ts.isEmpty || !((get_tags_for_generation db g.id).any (fun n => ts.contains n))
      | none => true)
  && (match filter.model with
      | some m => g.model == m
      | none => true)
  && (!filter.starred_only || g.starred)
  && (match filter.search with
      | some s => likeContains g.prompt s
      | none => true)
  && (match filter.since with
      | some s => strGeB g.date s
      | none => true)

/-- Insert a row into a list sorted by `timestamp` descending (stable). -/
def insertTsDesc (g : GenRow) : List GenRow → List GenRow
  | [] => [g]
  | h :: t => if strLtB h.timestamp g.timestamp then g :: h :: t else h :: insertTsDesc g t

/-- ORDER BY `g.timestamp DESC` as an insertion sort. -/
def sortTsDesc (l : List GenRow) : List GenRow := l.foldr insertTsDesc []

/-- Row computation of `Database::list_generations`: SELECT DISTINCT rows
matching the composed conditions, ordered newest-first, with `LIMIT n OFFSET m`
applied (SQLite treats a negative LIMIT as "no limit" and a negative OFFSET as
0), then hydrated. This is the value of the query whenever the built SQL is
well-formed; `list_generations_result` below wraps it with the one way the
source's string-building can produce ill-formed SQL. -/
def list_generations (db : DB) (filter : ListFilter) : List Generation :=
  let rows := (db.gens.filter (genMatches db filter)).dedup
  let sorted := sortTsDesc rows
  let afterOffset := match filter.offset with
    | some m => sorted.drop m.toNat
    | none => sorted
  let limited := match filter.limit with
    | some n => if n < 0 then afterOffset else afterOffset.take n.toNat
    | none => afterOffset
  limited.map (hydrate db)

/-- Caller-facing result of `Database::list_generations`
(`Result<Vec<Generation>>`): the source appends " OFFSET m" only after an
optional " LIMIT n" clause, so a filter with an offset but no limit builds
`… ORDER BY g.timestamp DESC OFFSET m`, which SQLite rejects at prepare time
(OFFSET is only valid after LIMIT) — the call returns an error and no rows.
Every other filter runs the query and yields the rows above. -/
def list_generations_result (db : DB) (filter : ListFilter) :
    Except String (List Generation) :=
  if filter.limit.isNone && filter.offset.isSome then
    .error "near \x22OFFSET\x22: syntax error"
  else
    .ok (list_generations db filter)

/-- Soft delete (`Database::trash_generation`): `UPDATE generations SET
trashed_at = now WHERE id = ? AND trashed_at IS NULL`; returns whether any row
changed. `now` is the hoisted `chrono::Local::now()` reading. -/
def trash_generation (db : DB) (now : String) (id : Int) : DB × Bool :=
  let changed := db.gens.countP (fun g => g.id == id && g.trashed_at.isNone)
  ({ db with gens := db.gens.map (fun g =>
      if g.id == id && g.trashed_at.isNone then { g with trashed_at := some now } else g) },
   decide (0 < changed))

/-- Hard delete (`Database::permanently_delete_generation`): reads the row's
`image_path` (if any), then `DELETE FROM generations WHERE id = ?` under
`PRAGMA foreign_keys = ON`. The three join tables reference the generation
with `ON DELETE CASCADE` and are purged; but `generation_jobs.generation_id`
and `generations.parent_id` are plain `REFERENCES generations(id)` with no
delete action, so when the statement would remove a row that a job row or a
surviving generation still references, SQLite fails it with "FOREIGN KEY
constraint failed": the whole statement (cascades included) is rolled back,
the row is retained, and the error propagates instead of the path. A row
whose only referencer is itself (`parent_id = id`) deletes cleanly, since the
referencing row is gone by the end of the statement. -/
def permanently_delete_generation (db : DB) (id : Int) :
    DB × Except String (Option String) :=
  let path := (db.gens.find? (fun g => g.id == id)).map (fun g => g.image_path)
  let deletesRow := db.gens.any (fun g => g.id == id)
  let jobRef := db.jobs.any (fun j => j.generation_id == some id)
  let childRef := db.gens.any (fun g => !(g.id == id) && g.parent_id == some id)
  if deletesRow && (jobRef || childRef) then
    (db, .error "FOREIGN KEY constraint failed")
  else
    ({ db with
        gens := db.gens.filter (fun g => !(g.id == id)),
        genTags := db.genTags.filter (fun p => !(p.1 == id)),
        genRefs := db.genRefs.filter (fun p => !(p.1 == id)),
        genCollections := db.genCollections.filter (fun p => !(p.1 == id)) },
     .ok path)

/-- Get-or-create a tag row by name (`Database::get_or_create_tag`). -/
def get_or_create_tag (db : DB) (name : String) : DB × Int :=
  match db.tags.find? (fun t => t.name == name) with
  | some t => (db, t.id)
  | none =>
    let row : TagRow := { id := db.nextTagId, name := name }
    ({ db with tags := db.tags ++ [row], nextTagId := db.nextTagId + 1 }, db.nextTagId)

/-- Attach tags (`Database::add_tags`): the source's for-loop over the tag
list — per tag, get-or-create the tag row and `INSERT OR IGNORE` the
(generation, tag) link. -/
def add_tags (db : DB) (generation_id : Int) : List String → DB
  | [] => db
  | tag :: rest =>
    let (db₁, tag_id) := get_or_create_tag db tag
    let db₂ :=
      if db₁.genTags.contains (generation_id, tag_id) then db₁
      else { db₁ with genTags := db₁.genTags ++ [(generation_id, tag_id)] }
    add_tags db₂ generation_id rest

/-- Get-or-create a reference row by content hash
(`Database::get_or_create_reference`); `dbNow` is the SQLite
`CURRENT_TIMESTAMP` default for `created_at`. -/
def get_or_create_reference (db : DB) (dbNow : String) (hash path : String) : DB × Int :=
  match db.refs.find? (fun r => r.hash == hash) with
  | some r => (db, r.id)
  | none =>
    let row : Reference :=
      { id := db.nextRefId, hash := hash, path := path, created_at := dbNow }
    ({ db with refs := db.refs ++ [row], nextRefId := db.nextRefId + 1 }, db.nextRefId)

/-- Link a reference to a generation, `INSERT OR IGNORE`
(`Database::link_reference`). -/
def link_reference (db : DB) (generation_id ref_id : Int) : DB :=
  if db.genRefs.contains (generation_id, ref_id) then db
  else { db with genRefs := db.genRefs ++ [(generation_id, ref_id)] }

/-- COALESCE(SUM(cost_estimate_usd), 0) over a row group: NULL costs
contribute nothing and an all-NULL group coalesces to 0. -/
def coalescedSum (rows : List GenRow) : Rat :=
  (rows.map (fun g => g.cost_estimate_usd.getD 0)).sum

/-- Descending comparison on `SUM(cost_estimate_usd)` group keys, where a
group whose costs are all NULL has a NULL sum, which SQLite orders last under
DESC. -/
def sumKeyGt : Option Rat → Option Rat → Bool
  | some x, some y => decide (y < x)
  | some _, none => true
  | none, _ => false

/-- Raw (uncoalesced) SUM over a group: NULL when every cost is NULL. -/
def rawSumKey (rows : List GenRow) : Option Rat :=
  if rows.all (fun g => g.cost_estimate_usd.isNone) then none else some (coalescedSum rows)

/-- Insertion into a list of groups sorted by `sumKeyGt` on the key. -/
def insertByKeyDesc (x : String × Option Rat × Rat) :
    List (String × Option Rat × Rat) → List (String × Option Rat × Rat)
  | [] => [x]
  | h :: t => if sumKeyGt x.2.1 h.2.1 then x :: h :: t else h :: insertByKeyDesc x t

/-- Insertion into a list of date strings sorted descending. -/
def insertDateDesc (d : String) : List String → List String
  | [] => [d]
  | h :: t => if strLtB h d then d :: h :: t else h :: insertDateDesc d t

/-- Cost aggregation (`Database::get_cost_summary`): total and count over the
(optionally date-floored) `generations` table, per-model sums ordered by raw
sum descending, and per-day sums for the 30 most recent days. -/
def get_cost_summary (db : DB) (since : Option String) : CostSummary :=
  let rows := match since with
    | some s => db.gens.filter (fun g => strGeB g.date s)
    | none => db.gens
  let total := coalescedSum rows
  let count : Int := rows.length
  let modelKeys := (rows.map (fun g => g.model)).dedup
  let modelGroups := modelKeys.map (fun m =>
    let grp := rows.filter (fun g => g.model == m)
    (m, rawSumKey grp, coalescedSum grp))
  let by_model := (modelGroups.foldr insertByKeyDesc []).map (fun x => (x.1, x.2.2))
  let dayKeys := ((rows.map (fun g => g.date)).dedup.foldr insertDateDesc []).take 30
  let by_day := dayKeys.map (fun d => (d, coalescedSum (rows.filter (fun g => g.date == d))))
  { total_usd := total, by_model := by_model, by_day := by_day, count := count }

/-! ## Job operations (db.rs) -/

/-- Insert into `generation_jobs` (`Database::create_job`): status defaults to
'pending', `created_at` defaults to the SQLite clock (`createdAt`); the tag
list is stored JSON-serialized (embedded structurally). Returns the updated
database and `last_insert_rowid`. -/
def create_job (db : DB) (createdAt : String) (model prompt : String)
    (tags : Option (List String)) (source : JobSource) (ref_count : Int) : DB × Int :=
  let row : JobRow :=
    { id := db.nextJobId, status := "pending", model := model, prompt := prompt,
      tags := tags, source := source.toStr, ref_count := ref_count,
      created_at := createdAt, started_at := none, completed_at := none,
      generation_id := none, error := none }
  ({ db with jobs := db.jobs ++ [row], nextJobId := db.nextJobId + 1 }, db.nextJobId)

/-- Mark started (`Database::update_job_started`): `UPDATE generation_jobs SET
status = 'running', started_at = now WHERE id = ?` — note: no guard on the
current status. -/
def update_job_started (db : DB) (now : String) (id : Int) : DB :=
  { db with jobs := db.jobs.map (fun j =>
      if j.id == id then { j with status := "running", started_at := some now } else j) }

/-- Mark completed (`Database::update_job_completed`): sets status, completion
time and generation id by job id, with no guard on the current status. -/
def update_job_completed (db : DB) (now : String) (id generation_id : Int) : DB :=
  { db with jobs := db.jobs.map (fun j =>
      if j.id == id then
        { j with status := "completed", completed_at := some now,
                 generation_id := some generation_id }
      else j) }

/-- Mark failed (`Database::update_job_failed`): sets status, completion time
and the error text by job id, with no guard on the current status. -/
def update_job_failed (db : DB) (now : String) (id : Int) (error : String) : DB :=
  { db with jobs := db.jobs.map (fun j =>
      if j.id == id then
        { j with status := "failed", completed_at := some now, error := some error }
      else j) }

/-- Stalled-job sweep (`Database::cleanup_stalled_jobs`): force-fails every
job still 'pending' or 'running' whose `created_at` is before the 30-minute
cutoff; `cutoff` and `now` are the hoisted clock readings. Returns the number
of rows changed. -/
def cleanup_stalled_jobs (db : DB) (cutoff now : String) : DB × Nat :=
  let stalled := fun j : JobRow =>
    (j.status == "pending" || j.status == "running") && strLtB j.created_at cutoff
  ({ db with jobs := db.jobs.map (fun j =>
      if stalled j then
        { j with status := "failed", error := some "Job timed out after 30 minutes",
                 completed_at := some now }
      else j) },
   db.jobs.countP stalled)

/-- Row parse (`db.rs::parse_job_row`): unknown status strings coerce to
`Pending` via `unwrap_or`, unknown sources to `Cli`. -/
def parse_job_row (j : JobRow) : Job :=
  { id := j.id, status := (JobStatus.fromStr j.status).getD JobStatus.pending,
    model := j.model, prompt := j.prompt, tags := j.tags,
    source := (JobSource.fromStr j.source).getD JobSource.cli,
    ref_count := j.ref_count, created_at := j.created_at,
    started_at := j.started_at, completed_at := j.completed_at,
    generation_id := j.generation_id, error := j.error }

/-! ## Content store (archive.rs)

Strings that cross the byte-slicing boundary in `slugify_prompt` are handled
at the level of their UTF-8 bytes (`List Nat`). The external `slug` crate's
`slugify` is embedded from its source: a byte-wise filter that keeps
`[a-z0-9]`, lowercases `[A-Z]`, collapses everything else into single dashes,
and trims; non-ASCII chars go through the `deunicode` transliteration table,
which is abstracted as a parameter `deu` (for a char, the bytes of
`deunicode_char(c).unwrap_or("-")`) — every theorem below holds for all
tables. -/

/-- One step of the `slug` crate's `push_char` closure on state (accumulated
bytes, prev_is_dash). -/
def slugPushChar (st : List Nat × Bool) (x : Nat) : List Nat × Bool :=
  if (97 ≤ x && x ≤ 122) || (48 ≤ x && x ≤ 57) then (st.1 ++ [x], false)
  else if 65 ≤ x && x ≤ 90 then (st.1 ++ [x - 65 + 97], false)
  else if st.2 then st
  else (st.1 ++ [45], true)

/-- The `slug` crate's `slugify` over the chars of the input, producing UTF-8
bytes: ASCII chars feed `push_char` directly, other chars feed it their
transliteration bytes `deu c`; a single trailing dash is popped. -/
def slugifyBytes (deu : Char → List Nat) (s : List Char) : List Nat :=
  let step := fun (st : List Nat × Bool) (c : Char) =>
    if c.toNat < 128 then slugPushChar st c.toNat
    else (deu c).foldl slugPushChar st
  let r := (s.foldl step ([], true)).1
  if r.getLastD 0 == 45 then r.dropLast else r

/-- Whether a codepoint has the Unicode White_Space property (Rust
`char::is_whitespace`, used by `str::split_whitespace`). -/
def rustIsWhitespace (c : Char) : Bool :=
  [9, 10, 11, 12, 13, 32, 133, 160, 5760, 8192, 8193, 8194, 8195, 8196, 8197,
   8198, 8199, 8200, 8201, 8202, 8232, 8233, 8239, 8287, 12288].contains c.toNat

/-- Accumulator-based splitter behind `split_whitespace`. -/
def splitWSAux : List Char → List Char → List (List Char)
  | [], cur => if cur.isEmpty then [] else [cur.reverse]
  | c :: rest, cur =>
    if rustIsWhitespace c then
      if cur.isEmpty then splitWSAux rest [] else cur.reverse :: splitWSAux rest []
    else splitWSAux rest (c :: cur)

/-- Rust `str::split_whitespace`: maximal non-whitespace runs, empties
skipped. -/
def split_whitespace (s : List Char) : List (List Char) := splitWSAux s []

/-- UTF-8 bytes of `"image"`, the fallback slug. -/
def imageBytes : List Nat := [105, 109, 97, 103, 101]

/-- Slug derivation (`archive.rs::slugify_prompt`): slugify the first five
whitespace-separated words, truncate to the first 40 bytes when longer, fall
back to "image" when empty. The Rust truncation `slug[..40]` is a byte-range
index; this is its value when byte 40 is a char boundary (see
`slugify_promptChecked` for the panic model). -/
def slugify_prompt (deu : Char → List Nat) (prompt : List Char) : List Nat :=
  let words := (split_whitespace prompt).take 5
  let slug := slugifyBytes deu (List.intercalate [' '] words)
  if slug.length > 40 then slug.take 40
  else if slug.isEmpty then imageBytes
  else slug

/-- Whether a byte is a UTF-8 continuation byte (0x80–0xBF). Rust
`str::is_char_boundary` is false exactly at such bytes. -/
def isUtf8ContByte (b : Nat) : Bool := 128 ≤ b && b < 192

/-- Whether byte index `n` is a char boundary of the UTF-8 byte list
`bytes` (assuming `n ≤ length`, the only case exercised). -/
def isCharBoundary (bytes : List Nat) (n : Nat) : Bool :=
  match bytes.get? n with
  | none => true
  | some b => !isUtf8ContByte b

/-- Panic-aware variant of `slugify_prompt`: `none` models the panic Rust's
`slug[..40]` raises when byte 40 is not a char boundary. -/
def slugify_promptChecked (deu : Char → List Nat) (prompt : List Char) : Option (List Nat) :=
  let words := (split_whitespace prompt).take 5
  let slug := slugifyBytes deu (List.intercalate [' '] words)
  if slug.length > 40 then
    if isCharBoundary slug 40 then some (slug.take 40) else none
  else if slug.isEmpty then some imageBytes
  else some slug

/-- Flat in-memory filesystem: a path-to-content association list. -/
structure FS where
  files : List (String × List Nat)
deriving DecidableEq, Repr

/-- Read a file's bytes (`fs::read`). -/
def FS.read (fs : FS) (p : String) : Option (List Nat) :=
  (fs.files.find? (fun e => e.1 == p)).map (fun e => e.2)

/-- Path existence test (`Path::exists`). -/
def FS.existsPath (fs : FS) (p : String) : Bool :=
  fs.files.any (fun e => e.1 == p)

/-- Write bytes at a path, replacing any previous content; models the effect
of `fs::copy(source, dest)` given the source's bytes. -/
def FS.writeFile (fs : FS) (p : String) (data : List Nat) : FS :=
  ⟨fs.files.filter (fun e => !(e.1 == p)) ++ [(p, data)]⟩

/-- Last path component, as chars (Rust `Path::file_name`). -/
def pathFileName (p : String) : List Char :=
  ((p.data.foldl (fun (acc : List Char × List (List Char)) c =>
      if c == '/' then ([], acc.2 ++ [acc.1]) else (acc.1 ++ [c], acc.2)) ([], [])).1)

/-- Rust `Path::extension`: the portion of the file name after the last `.`,
none when there is no `.` or when the only `.` leads the name. -/
def rustExtension (p : String) : Option String :=
  let name := pathFileName p
  match name.reverse.findIdx? (fun c => c == '.') with
  | none => none
  | some j => if j + 1 == name.length then none else some ⟨(name.reverse.take j).reverse⟩

/-- Content-store layout roots (archive.rs): the references directory under
the archive root; `home` abstracts `dirs::home_dir()`. -/
def references_dir (home : String) : String := home ++ "/media/image-gen/references"

/-- Reference-image dedup store (`archive.rs::store_reference`): read the
source bytes, hash them (`sha` abstracts the `sha2` SHA-256 hex digest), name
the destination `<hash>.<source extension, default png>` under the references
directory, and copy only when the destination does not already exist. Returns
`(hash, stored path, filesystem after, whether a copy was performed)`. -/
def store_reference (sha : List Nat → String) (home : String) (fs : FS)
    (source_path : String) : Except String (String × String × FS × Bool) :=
  match fs.read source_path with
  | none => .error "Failed to read reference image"
  | some data =>
    let hash := sha data
    let extension := (rustExtension source_path).getD "png"
    let dest_path := references_dir home ++ "/" ++ hash ++ "." ++ extension
    if fs.existsPath dest_path then .ok (hash, dest_path, fs, false)
    else .ok (hash, dest_path, fs.writeFile dest_path data, true)

/-! ## Workflow (workflow.rs)

The provider call (`providers::generate`, network I/O) and the archive write
(`archive::save_image`, image decoding plus filesystem writes) are external
effects and enter as parameters: `providerResult` is the call's outcome and
`saveImage bytes date slug timestamp` the archive outcome `(image path,
thumbnail path, width, height, file size)`. In `complete_generation` the
filesystem side of `archive::store_reference` is likewise a parameter
`storeRef : source path → (hash, stored path)` (its internals are embedded and
verified separately as `store_reference`). Clock readings are hoisted to
string arguments in call order. -/

/-- UTF-8 bytes (all ASCII here) back to a string, for the slug. -/
def bytesToStr (bs : List Nat) : String := ⟨bs.map Char.ofNat⟩

/-- Pre-generation (`workflow.rs::prepare_generation`): resolve model info
(the cost estimate and the provider name, "unknown" when the model is not in
the table), create the job, mark it started. Returns the updated database and
`(job_id, estimated_cost, provider)`. -/
def prepare_generation (db : DB) (createdAt startedAt : String)
    (model prompt : String) (tags : List String) (source : JobSource)
    (ref_count : Int) : DB × Int × Option Rat × String :=
  let model_info := ModelInfo.find model
  let estimated_cost := model_info.map (fun m => m.cost_per_image)
  let provider := (model_info.map (fun m => m.provider.toStr)).getD "unknown"
  let tags_opt := if tags.isEmpty then none else some tags
  let (db₁, job_id) := create_job db createdAt model prompt tags_opt source ref_count
  let db₂ := update_job_started db₁ startedAt job_id
  (db₂, job_id, estimated_cost, provider)

/-- The reference loop of `complete_generation`: for each path, store the
bytes (external outcome `storeRef`), get-or-create the `refs` row, link it;
an error propagates immediately, keeping the links made so far. -/
def linkRefs (storeRef : String → Except String (String × String)) (db : DB)
    (dbNow : String) (generation_id : Int) : List String → DB × Except String Unit
  | [] => (db, .ok ())
  | p :: rest =>
    match storeRef p with
    | .error e => (db, .error e)
    | .ok (hash, stored_path) =>
      let (db₁, ref_id) := get_or_create_reference db dbNow hash stored_path
      let db₂ := link_reference db₁ generation_id ref_id
      linkRefs storeRef db₂ dbNow generation_id rest

/-- Post-generation (`workflow.rs::complete_generation`): derive the slug,
archive the image, insert the Generation with cost = provider-reported cost
`or` the pre-dispatch estimate, attach tags, store and link references, mark
the job completed, and re-read the hydrated Generation. `date`/`timestamp`
are the two `chrono::Local::now()` formats, `dbNow` the SQLite clock and
`completedAt` the clock read inside `update_job_completed`. -/
def complete_generation (deu : Char → List Nat)
    (saveImage : List Nat → String → String → String →
      Except String (String × Option String × Int × Int × Int))
    (storeRef : String → Except String (String × String))
    (db : DB) (date timestamp dbNow completedAt : String)
    (job_id : Int) (prompt model provider : String) (tags : List String)
    (reference_paths : List String) (result : GenerationResult)
    (estimated_cost : Option Rat) (negative_prompt : Option String) :
    DB × Except String (Int × Generation) :=
  let slug := bytesToStr (slugify_prompt deu prompt.data)
  match saveImage result.image_data date slug timestamp with
  | .error e => (db, .error e)
  | .ok (image_path, thumb_path, width, height, file_size) =>
    let cost := match result.cost_usd with
      | some c => some c
      | none => estimated_cost
    let (db₁, gen_id) := insert_generation db dbNow slug prompt model provider
      timestamp date image_path thumb_path (some result.generation_time_seconds)
      cost result.seed (some width) (some height) (some file_size) none
      negative_prompt
    let db₂ := if tags.isEmpty then db₁ else add_tags db₁ gen_id tags
    match linkRefs storeRef db₂ dbNow gen_id reference_paths with
    | (db₃, .error e) => (db₃, .error e)
    | (db₃, .ok _) =>
      let db₄ := update_job_completed db₃ completedAt job_id gen_id
      match get_generation db₄ gen_id with
      | some generation => (db₄, .ok (gen_id, generation))
      | none => (db₄, .error "Failed to retrieve generation after insert")

/-- Full workflow (`workflow.rs::perform_generation`): prepare (create + start
the job), dispatch the provider (outcome `providerResult`); on provider error,
mark the job failed with the error's display text and propagate the error; on
success, run `complete_generation`. -/
def perform_generation (deu : Char → List Nat)
    (saveImage : List Nat → String → String → String →
      Except String (String × Option String × Int × Int × Int))
    (storeRef : String → Except String (String × String))
    (providerResult : Except String GenerationResult)
    (db : DB) (createdAt startedAt failedAt date timestamp dbNow completedAt : String)
    (prompt model : String) (tags : List String) (reference_paths : List String)
    (source : JobSource) (negative_prompt : Option String) :
    DB × Except String (Int × Generation) :=
  let (db₁, job_id, estimated_cost, provider) :=
    prepare_generation db createdAt startedAt model prompt tags source
      (reference_paths.length : Int)
  match providerResult with
  | .error e => (update_job_failed db₁ failedAt job_id e, .error e)
  | .ok result =>
    complete_generation deu saveImage storeRef db₁ date timestamp dbNow
      completedAt job_id prompt model provider tags reference_paths result
      estimated_cost negative_prompt

/-! ## Job operations as a step relation (for the lifecycle claims) -/

/-- One invocation of a Catalog job operation, with its clock readings and
arguments. -/
inductive JobOp where
  | createJob (createdAt model prompt : String) (tags : Option (List String))
      (source : JobSource) (ref_count : Int)
  | started (now : String) (id : Int)
  | completed (now : String) (id generation_id : Int)
  | failed (now : String) (id : Int) (error : String)
  | cleanupStalled (cutoff now : String)

/-- Apply a job operation to the database. -/
def applyJobOp (db : DB) : JobOp → DB
  | .createJob c m p t s r => (create_job db c m p t s r).1
  | .started n i => update_job_started db n i
  | .completed n i g => update_job_completed db n i g
  | .failed n i e => update_job_failed db n i e
  | .cleanupStalled c n => (cleanup_stalled_jobs db c n).1

/-- Whether an operation is a per-id status update aimed at job id `i`. -/
def opTargets : JobOp → Int → Bool
  | .started _ i, id => i == id
  | .completed _ i _, id => i == id
  | .failed _ i _, id => i == id
  | _, _ => false

/-- Whether a persisted status string is terminal. -/
def terminalStatus (s : String) : Bool := s == "completed" || s == "failed"

/-- Predicate satisfied by every byte the slugifier can emit: a dash, an ASCII
digit or an ASCII lowercase letter. -/
def goodSlugByte (b : Nat) : Bool := b == 45 || (48 ≤ b && b ≤ 57) || (97 ≤ b && b ≤ 122)

/-! ## Concrete fixtures used by witnesses and counterexamples -/

/-- Generation row with the varying columns as arguments and fixed filler
elsewhere. -/
def mkGenRow (id : Int) (ts date image_path : String) (cost : Option Rat)
    (trashed : Option String) (model : String) : GenRow :=
  { id := id, slug := "s", prompt := "p", model := model, provider := "pr",
    timestamp := ts, date := date, image_path := image_path, thumb_path := none,
    generation_time_seconds := none, cost_estimate_usd := cost, seed := none,
    width := none, height := none, file_size := none, parent_id := none,
    starred := false, created_at := "c", trashed_at := trashed, title := none,
    negative_prompt := none }

/-- Job row with the varying columns as arguments and fixed filler
elsewhere. -/
def mkJobRow (id : Int) (status created_at : String) : JobRow :=
  { id := id, status := status, model := "m", prompt := "p", tags := none,
    source := "cli", ref_count := 0, created_at := created_at,
    started_at := none, completed_at := none, generation_id := none,
    error := none }

/-- Destination path `store_reference` derives for source `p` with content
`B`: the references directory, the digest, and the source path's extension
(default "png"). -/
def refDestPath (sha : List Nat → String) (home : String) (B : List Nat) (p : String) : String :=
  references_dir home ++ "/" ++ sha B ++ "." ++ ((rustExtension p).getD "png")

/-- Hydrated generation produced by the concrete C5 witness run: prompt
"a red fox in snow" on model "gemini-flash" with provider cost absent — the
cost column holds the model's static per-image estimate. -/
def c5WitnessGen : Generation :=
  { id := 1, slug := "a-red-fox-in-snow", prompt := "a red fox in snow",
    model := "gemini-flash", provider := "gemini",
    timestamp := "2024-01-01T00:00:00", date := "2024-01-01",
    image_path := "/p.png", thumb_path := none,
    generation_time_seconds := some (16/5), cost_estimate_usd := some (39/1000),
    seed := some "42", width := some 1024, height := some 1024,
    file_size := some 3, parent_id := none, starred := false, created_at := "n",
    trashed_at := none, title := none, negative_prompt := none,
    tags := [], references := [] }

/-! ## Shared lemmas -/

theorem map_eq_self_of {α : Type} (l : List α) (f : α → α) (h : ∀ a ∈ l, f a = a) :
    l.map f = l := by
  induction l with
  | nil => rfl
  | cons x xs ih =>
    simp only [List.map_cons]
    rw [h x (by simp), ih (fun a ha => h a (by simp [ha]))]

/-! ## C9 — unknown persisted job-status strings read as Pending -/

/-- C9: for every persisted job row whose status string is not one of
"pending", "running", "completed", "failed" up to (ASCII) case, reading the
row through `parse_job_row` yields a Job whose status is `Pending` rather
than an error. -/
theorem c9_unknown_status_reads_pending (j : JobRow)
    (h : rustLowercase j.status ∉ (["pending", "running", "completed", "failed"] : List String)) :
    (parse_job_row j).status = JobStatus.pending := by
  have hnone : JobStatus.fromStr j.status = none := by
    unfold JobStatus.fromStr
    split
    · exact absurd (by simp_all) h
    · exact absurd (by simp_all) h
    · exact absurd (by simp_all) h
    · exact absurd (by simp_all) h
    · rfl
  simp [parse_job_row, hnone]

/-- C9 witness: a row persisted with status "Weird-Status" parses to
`Pending`. -/
theorem c9_witness : (parse_job_row (mkJobRow 1 "Weird-Status" "c")).status = JobStatus.pending :=
  c9_unknown_status_reads_pending (mkJobRow 1 "Weird-Status" "c") (by decide)

/-! ## C2 — terminality of completed/failed under the job operations -/

/-- C2 counterexample: the step relation does admit a transition out of
`completed` — `update_job_started` is an unguarded `UPDATE ... WHERE id = ?`,
so applying it to a database whose only job is completed leaves that job
`running`. -/
theorem c2_counterexample :
    ({ jobs := [mkJobRow 1 "completed" "c"] } : DB).jobs.map (fun j => j.status) = ["completed"]
    ∧ (applyJobOp { jobs := [mkJobRow 1 "completed" "c"] }
        (JobOp.started "2024-01-01T00:00:00" 1)).jobs.map (fun j => j.status) = ["running"] :=
  ⟨rfl, rfl⟩

/-- C2 amended: a job whose status is completed or failed is never changed by
`create_job`, by `cleanup_stalled_jobs` (its WHERE clause only selects pending
and running rows), or by a status update invoked with a different job id; only
`update_job_started` / `update_job_completed` / `update_job_failed` invoked
with the terminal job's own id — the caller logic error the spec forbids —
move it out of `completed`/`failed`. -/
theorem c2_terminal_preserved_unless_targeted (db : DB) (op : JobOp) (j : JobRow)
    (hj : j ∈ db.jobs) (hterm : terminalStatus j.status = true)
    (hnt : opTargets op j.id = false) : j ∈ (applyJobOp db op).jobs := by
  have hs : j.status = "completed" ∨ j.status = "failed" := by
    simpa [terminalStatus, Bool.or_eq_true, beq_iff_eq] using hterm
  cases op with
  | createJob c m p t s r =>
    simp only [applyJobOp, create_job]
    exact List.mem_append_left _ hj
  | started n i =>
    have hid : (j.id == i) = false := by
      simp only [opTargets] at hnt
      simpa [BEq.comm] using hnt
    refine List.mem_map.mpr ⟨j, hj, ?_⟩
    simp [hid]
  | completed n i g =>
    have hid : (j.id == i) = false := by
      simp only [opTargets] at hnt
      simpa [BEq.comm] using hnt
    refine List.mem_map.mpr ⟨j, hj, ?_⟩
    simp [hid]
  | failed n i e =>
    have hid : (j.id == i) = false := by
      simp only [opTargets] at hnt
      simpa [BEq.comm] using hnt
    refine List.mem_map.mpr ⟨j, hj, ?_⟩
    simp [hid]
  | cleanupStalled c n =>
    refine List.mem_map.mpr ⟨j, hj, ?_⟩
    rcases hs with h | h <;> simp [h]

/-- C2 witness: a completed job survives a stalled-job sweep unchanged. -/
theorem c2_witness :
    mkJobRow 1 "completed" "2000-01-01T00:00:00"
      ∈ (applyJobOp { jobs := [mkJobRow 1 "completed" "2000-01-01T00:00:00"] }
          (JobOp.cleanupStalled "2024-01-01T00:00:00" "2024-01-01T00:30:00")).jobs :=
  c2_terminal_preserved_unless_targeted _ _ _ (by decide) (by decide) (by decide)

/-! ## C6 — trashing is idempotent -/

/-- C6: re-trashing generation id whose rows are all already trashed leaves the
database unchanged — every field of every row, including `trashed_at` — and
reports "no change" (`false`); trashing when a non-trashed row with that id
exists reports `true`, stamps exactly those rows with the new `trashed_at`,
and carries every other row over unchanged. -/
theorem c6_trash_generation_idempotent (db : DB) (now : String) (id : Int) :
    ((∀ g ∈ db.gens, g.id = id → g.trashed_at ≠ none) →
      trash_generation db now id = (db, false))
    ∧ ((∃ g ∈ db.gens, g.id = id ∧ g.trashed_at = none) →
      (trash_generation db now id).2 = true
      ∧ ∀ g ∈ db.gens,
          (g.id = id ∧ g.trashed_at = none →
            { g with trashed_at := some now } ∈ (trash_generation db now id).1.gens)
          ∧ (¬(g.id = id ∧ g.trashed_at = none) →
            g ∈ (trash_generation db now id).1.gens)) := by
  constructor
  · intro h
    have hcond : ∀ g ∈ db.gens, (g.id == id && g.trashed_at.isNone) = false := by
      intro g hg
      by_cases hgi : g.id = id
      · have hne := h g hg hgi
        cases htr : g.trashed_at with
        | none => exact absurd htr hne
        | some v => simp [htr]
      · simp [beq_eq_false_iff_ne.mpr hgi]
    have hmap := map_eq_self_of db.gens
      (fun g => if g.id == id && g.trashed_at.isNone then { g with trashed_at := some now } else g)
      (fun g hg => by simp [hcond g hg])
    have hcnt : db.gens.countP (fun g => g.id == id && g.trashed_at.isNone) = 0 :=
      List.countP_eq_zero.mpr (fun g hg => by simp [hcond g hg])
    simp only [trash_generation, hmap, hcnt]
    rfl
  · rintro ⟨g₀, hg₀, hid₀, htr₀⟩
    have hpos : 0 < db.gens.countP (fun g => g.id == id && g.trashed_at.isNone) :=
      List.countP_pos_iff.mpr ⟨g₀, hg₀, by simp [hid₀, htr₀]⟩
    refine ⟨by simp only [trash_generation]; exact decide_eq_true hpos, ?_⟩
    intro g hg
    constructor
    · rintro ⟨h1, h2⟩
      refine List.mem_map.mpr ⟨g, hg, ?_⟩
      simp [h1, h2]
    · intro hneg
      refine List.mem_map.mpr ⟨g, hg, ?_⟩
      by_cases h1 : g.id = id
      · cases htr : g.trashed_at with
        | none => exact absurd ⟨h1, htr⟩ hneg
        | some v => simp [htr]
      · simp [beq_eq_false_iff_ne.mpr h1]

/-- C6 witness: re-trashing an already-trashed generation returns the database
unchanged with result `false`. -/
theorem c6_witness :
    trash_generation { gens := [mkGenRow 1 "t" "d" "i" none (some "T0") "m"] } "T1" 1
      = ({ gens := [mkGenRow 1 "t" "d" "i" none (some "T0") "m"] }, false) :=
  (c6_trash_generation_idempotent { gens := [mkGenRow 1 "t" "d" "i" none (some "T0") "m"] }
    "T1" 1).1 (by decide)

/-! ## C8 — null costs count toward count but not the total -/

/-- C8: a catalog of three generations with costs 1.00, 2.50 and NULL on
distinct days yields, with no date floor, a cost summary with total 3.50 and
count 3 — NULL costs are counted but contribute nothing to the sum. -/
theorem c8_cost_summary_nulls (g₁ g₂ g₃ : GenRow)
    (h₁ : g₁.cost_estimate_usd = some 1) (h₂ : g₂.cost_estimate_usd = some (5/2))
    (h₃ : g₃.cost_estimate_usd = none)
    (hd₁₂ : g₁.date ≠ g₂.date) (hd₁₃ : g₁.date ≠ g₃.date) (hd₂₃ : g₂.date ≠ g₃.date) :
    (get_cost_summary { gens := [g₁, g₂, g₃] } none).total_usd = 7/2
    ∧ (get_cost_summary { gens := [g₁, g₂, g₃] } none).count = 3 := by
  constructor
  · simp [get_cost_summary, coalescedSum, h₁, h₂, h₃]
    norm_num
  · rfl

/-- C8 witness: the summary of a concrete such catalog. -/
theorem c8_witness :
    (get_cost_summary { gens := [mkGenRow 1 "t1" "2024-01-01" "i1" (some 1) none "m",
        mkGenRow 2 "t2" "2024-01-02" "i2" (some (5/2)) none "m",
        mkGenRow 3 "t3" "2024-01-03" "i3" none none "m"] } none).total_usd = 7/2
    ∧ (get_cost_summary { gens := [mkGenRow 1 "t1" "2024-01-01" "i1" (some 1) none "m",
        mkGenRow 2 "t2" "2024-01-02" "i2" (some (5/2)) none "m",
        mkGenRow 3 "t3" "2024-01-03" "i3" none none "m"] } none).count = 3 :=
  c8_cost_summary_nulls _ _ _ rfl rfl rfl (by decide) (by decide) (by decide)

/-! ## C1 — provider failure leaves exactly one terminal Job and no Generation -/

/-- C1: whenever the provider call dispatched by `perform_generation` fails
(after `prepare_generation` created and started the job), the error is
propagated to the caller unchanged, no `generations` row is created (and no
other table changes), and the database gains exactly one job record — the one
this call created — now terminal with status `failed` and the provider's
error text stored verbatim. Holds for every database whose stored jobs
respect the AUTOINCREMENT freshness of `nextJobId`. -/
theorem c1_provider_failure_one_failed_job (deu : Char → List Nat)
    (si : List Nat → String → String → String →
      Except String (String × Option String × Int × Int × Int))
    (sr : String → Except String (String × String)) (db : DB)
    (createdAt startedAt failedAt date timestamp dbNow completedAt : String)
    (prompt model : String) (tags : List String) (reference_paths : List String)
    (source : JobSource) (negative_prompt : Option String) (e : String)
    (hfresh : ∀ j ∈ db.jobs, j.id ≠ db.nextJobId) :
    perform_generation deu si sr (.error e) db createdAt startedAt failedAt date
      timestamp dbNow completedAt prompt model tags reference_paths source negative_prompt
    = ({ db with
          jobs := db.jobs ++
            [{ id := db.nextJobId, status := "failed", model := model,
               prompt := prompt, tags := if tags.isEmpty then none else some tags,
               source := source.toStr, ref_count := (reference_paths.length : Int),
               created_at := createdAt, started_at := some startedAt,
               completed_at := some failedAt, generation_id := none, error := some e }],
          nextJobId := db.nextJobId + 1 },
       .error e) := by
  have hne : ∀ j ∈ db.jobs, (j.id == db.nextJobId) = false :=
    fun j hj => beq_eq_false_iff_ne.mpr (hfresh j hj)
  simp only [perform_generation, prepare_generation, create_job, update_job_started,
    update_job_failed, List.map_append, List.map_cons, List.map_nil, List.map_map]
  rw [map_eq_self_of db.jobs _ (fun j hj => by simp [hne j hj, hfresh j hj])]
  simp

/-- C1 witness: a provider failure "connection reset" on an empty catalog
yields exactly one failed job carrying that error text, and no generation. -/
theorem c1_witness :
    perform_generation (fun _ => [45]) (fun _ _ _ _ => .error "unused") (fun _ => .error "unused")
      (.error "connection reset") {} "c" "s" "f" "d" "t" "n" "co"
      "a cat" "gemini-flash" [] [] .cli none
    = ({ jobs := [{ id := 1, status := "failed", model := "gemini-flash", prompt := "a cat",
                    tags := none, source := "cli", ref_count := 0, created_at := "c",
                    started_at := some "s", completed_at := some "f", generation_id := none,
                    error := some "connection reset" }],
         nextJobId := 2 }, .error "connection reset") :=
  c1_provider_failure_one_failed_job (fun _ => [45]) (fun _ _ _ _ => .error "unused")
    (fun _ => .error "unused") {} "c" "s" "f" "d" "t" "n" "co"
    "a cat" "gemini-flash" [] [] .cli none "connection reset" (by decide)

/-! ## C10 — slugify_prompt is total, non-empty and at most 40 bytes -/

theorem slugPushChar_good (st : List Nat × Bool) (x : Nat)
    (h : ∀ b ∈ st.1, goodSlugByte b = true) :
    ∀ b ∈ (slugPushChar st x).1, goodSlugByte b = true := by
  intro b hb
  unfold slugPushChar at hb
  split at hb
  · rename_i hc
    rcases List.mem_append.mp hb with h1 | h2
    · exact h b h1
    · simp only [List.mem_singleton] at h2
      subst h2
      simp only [Bool.or_eq_true, Bool.and_eq_true, decide_eq_true_eq] at hc
      simp only [goodSlugByte, Bool.or_eq_true, Bool.and_eq_true, decide_eq_true_eq, beq_iff_eq]
      omega
  · split at hb
    · rename_i hc
      rcases List.mem_append.mp hb with h1 | h2
      · exact h b h1
      · simp only [List.mem_singleton] at h2
        subst h2
        simp only [Bool.and_eq_true, decide_eq_true_eq] at hc
        simp only [goodSlugByte, Bool.or_eq_true, Bool.and_eq_true, decide_eq_true_eq, beq_iff_eq]
        omega
    · split at hb
      · exact h b hb
      · rcases List.mem_append.mp hb with h1 | h2
        · exact h b h1
        · simp only [List.mem_singleton] at h2
          subst h2
          decide

theorem foldl_slugPushChar_good (l : List Nat) (st : List Nat × Bool)
    (h : ∀ b ∈ st.1, goodSlugByte b = true) :
    ∀ b ∈ (l.foldl slugPushChar st).1, goodSlugByte b = true := by
  induction l generalizing st with
  | nil => exact h
  | cons x xs ih => exact ih _ (slugPushChar_good st x h)

/-- Every byte the slugifier emits is a dash, an ASCII digit or an ASCII
lowercase letter, for every transliteration table. -/
theorem slugifyBytes_good (deu : Char → List Nat) (s : List Char) :
    ∀ b ∈ slugifyBytes deu s, goodSlugByte b = true := by
  have main : ∀ (st : List Nat × Bool), (∀ b ∈ st.1, goodSlugByte b = true) →
      ∀ b ∈ (s.foldl (fun st c => if c.toNat < 128 then slugPushChar st c.toNat
        else (deu c).foldl slugPushChar st) st).1, goodSlugByte b = true := by
    induction s with
    | nil => intro st h; exact h
    | cons c cs ih =>
      intro st h
      simp only [List.foldl_cons]
      apply ih
      by_cases hc : c.toNat < 128
      · simpa [hc] using slugPushChar_good st c.toNat h
      · simpa [hc] using foldl_slugPushChar_good (deu c) st h
  intro b hb
  simp only [slugifyBytes] at hb
  split at hb
  · exact main ([], true) (by simp) b ((List.dropLast_sublist _).subset hb)
  · exact main ([], true) (by simp) b hb

/-- C10: for every prompt (including empty, all-whitespace and multi-byte
Unicode prompts) and every transliteration table, `slugify_prompt` is total —
the byte-range truncation at index 40 always lands on a char boundary, so the
panic-aware variant returns a value — and the returned slug is non-empty, at
most 40 bytes long, and equal to "image" exactly when the slugified text is
empty. -/
theorem c10_slugify_prompt_total (deu : Char → List Nat) (prompt : List Char) :
    slugify_promptChecked deu prompt = some (slugify_prompt deu prompt)
    ∧ slugify_prompt deu prompt ≠ []
    ∧ (slugify_prompt deu prompt).length ≤ 40
    ∧ (slugifyBytes deu (List.intercalate [' '] ((split_whitespace prompt).take 5)) = [] →
        slugify_prompt deu prompt = imageBytes) := by
  have hgood := slugifyBytes_good deu (List.intercalate [' '] ((split_whitespace prompt).take 5))
  simp only [slugify_prompt, slugify_promptChecked]
  set slug := slugifyBytes deu (List.intercalate [' '] ((split_whitespace prompt).take 5))
    with hslug
  by_cases hlen : slug.length > 40
  · have hbd : isCharBoundary slug 40 = true := by
      unfold isCharBoundary
      cases hget : slug.get? 40 with
      | none => rfl
      | some b =>
        have hmem : b ∈ slug := List.get?_mem hget
        have hb := hgood b hmem
        simp only [goodSlugByte, Bool.or_eq_true, Bool.and_eq_true, decide_eq_true_eq,
          beq_iff_eq] at hb
        simp only [isUtf8ContByte, Bool.not_eq_true', Bool.and_eq_false_iff,
          decide_eq_false_iff_not]
        omega
    refine ⟨by simp [hlen, hbd], ?_, ?_, ?_⟩
    · simp only [if_pos hlen]
      intro hnil
      have := congrArg List.length hnil
      simp only [List.length_take, List.length_nil] at this
      omega
    · simp only [if_pos hlen, List.length_take]
      omega
    · intro h0
      rw [h0] at hlen
      simp at hlen
  · by_cases hemp : slug.isEmpty
    · have h0 : slug = [] := by simpa [List.isEmpty_iff] using hemp
      refine ⟨by simp [hlen, hemp], by simp [hlen, hemp, imageBytes], ?_, fun _ => by
        simp [hlen, hemp]⟩
      simp [hlen, hemp, imageBytes]
    · have h0 : slug ≠ [] := by
        intro hc
        rw [hc] at hemp
        simp at hemp
      refine ⟨by simp [hlen, hemp], by simpa [hlen, hemp] using h0, ?_, ?_⟩
      · simp only [if_neg hlen, hemp, Bool.false_eq_true, if_false]
        omega
      · intro hc
        exact absurd hc h0

/-! ## C4 — store_reference content idempotence -/

theorem FS.read_writeFile (fs : FS) (q p : String) (data : List Nat) :
    (FS.writeFile fs q data).read p = if p = q then some data else FS.read fs p := by
  unfold FS.writeFile FS.read
  by_cases h : p = q
  · subst h
    have hnone : (fs.files.filter (fun e => !(e.1 == p))).find? (fun e => e.1 == p) = none :=
      List.find?_eq_none.mpr (fun e he => by
        have h2 := (List.mem_filter.mp he).2
        simp only [Bool.not_eq_eq_eq_not, Bool.not_true] at h2
        simp [h2])
    rw [List.find?_append, hnone]
    simp
  · have hfilter : (fs.files.filter (fun e => !(e.1 == q))).find? (fun e => e.1 == p)
        = fs.files.find? (fun e => e.1 == p) := by
      induction fs.files with
      | nil => rfl
      | cons x xs ih =>
        simp only [List.filter_cons]
        by_cases hx : x.1 = q
        · rw [if_neg (by simp [hx]), ih,
            List.find?_cons_of_neg _ (by simp [hx, Ne.symm h])]
        · by_cases hp : x.1 = p
          · rw [if_pos (by simp [hx]), List.find?_cons_of_pos _ (by simp [hp]),
              List.find?_cons_of_pos _ (by simp [hp])]
          · rw [if_pos (by simp [hx]), List.find?_cons_of_neg _ (by simp [hp]),
              List.find?_cons_of_neg _ (by simp [hp]), ih]
    rw [List.find?_append, hfilter]
    have hsingle : ([(q, data)].find? (fun e => e.1 == p)) = none := by
      simp [beq_eq_false_iff_ne.mpr (Ne.symm h)]
    rw [hsingle, if_neg h]
    cases fs.files.find? (fun e => e.1 == p) <;> rfl

theorem FS.existsPath_eq_isSome_read (fs : FS) (p : String) :
    fs.existsPath p = (fs.read p).isSome := by
  unfold FS.existsPath FS.read
  induction fs.files with
  | nil => rfl
  | cons x xs ih =>
    by_cases hx : x.1 = p
    · rw [List.find?_cons_of_pos _ (by simp [hx])]
      simp [hx]
    · rw [List.find?_cons_of_neg _ (by simp [hx])]
      simp [hx, ih]

/-- C4 amended: `store_reference` is idempotent for byte-identical content
*with the same source-path extension*: the first call returns `(digest, stored
path)` and copies exactly when the destination is not already present; a
second call on a source with the same bytes and extension returns the
identical `(digest, stored path)` pair, performs no copy, and leaves the
filesystem unchanged. (With differing extensions the stored paths differ: see
the counterexample.) -/
theorem c4_store_reference_idempotent (sha : List Nat → String) (home : String)
    (fs : FS) (p₁ p₂ : String) (B : List Nat)
    (h₁ : fs.read p₁ = some B) (h₂ : fs.read p₂ = some B)
    (hext : rustExtension p₁ = rustExtension p₂) :
    store_reference sha home fs p₁
      = .ok (sha B, refDestPath sha home B p₁,
          (if fs.existsPath (refDestPath sha home B p₁) then fs
           else fs.writeFile (refDestPath sha home B p₁) B),
          !fs.existsPath (refDestPath sha home B p₁))
    ∧ store_reference sha home
        (if fs.existsPath (refDestPath sha home B p₁) then fs
         else fs.writeFile (refDestPath sha home B p₁) B) p₂
      = .ok (sha B, refDestPath sha home B p₁,
          (if fs.existsPath (refDestPath sha home B p₁) then fs
           else fs.writeFile (refDestPath sha home B p₁) B),
          false) := by
  simp only [refDestPath]
  by_cases hex :
      fs.existsPath (references_dir home ++ "/" ++ sha B ++ "." ++ (rustExtension p₁).getD "png")
  · constructor
    · simp [store_reference, h₁, hex]
    · simp [store_reference, h₂, ← hext, hex]
  · constructor
    · simp [store_reference, h₁, hex]
    · have hread :
          (fs.writeFile (references_dir home ++ "/" ++ sha B ++ "." ++
            (rustExtension p₁).getD "png") B).read p₂ = some B := by
        rw [FS.read_writeFile]
        by_cases hpd : p₂ = references_dir home ++ "/" ++ sha B ++ "." ++
            (rustExtension p₁).getD "png"
        · simp [hpd]
        · simp [hpd, h₂]
      have hex2 :
          (fs.writeFile (references_dir home ++ "/" ++ sha B ++ "." ++
            (rustExtension p₁).getD "png") B).existsPath
            (references_dir home ++ "/" ++ sha B ++ "." ++
              (rustExtension p₁).getD "png") = true := by
        rw [FS.existsPath_eq_isSome_read, FS.read_writeFile]
        simp
      simp [store_reference, hex, hread, ← hext, hex2]

/-- C4 counterexample: the claim fails as stated when the two byte-identical
source files have different extensions — here `a.jpg` and `b.png` with the
same content: the first call stores `<digest>.jpg`, the second call stores
`<digest>.png` (a different path) and performs a second physical copy. -/
theorem c4_counterexample :
    ((store_reference (fun _ => "h") "/h" (FS.mk [("a.jpg", [7]), ("b.png", [7])])
        "a.jpg").toOption.bind
      (fun r₁ => (store_reference (fun _ => "h") "/h" r₁.2.2.1 "b.png").toOption.map
        (fun r₂ => (r₁.2.1, r₂.2.1, r₂.2.2.2))))
    = some ("/h/media/image-gen/references/h.jpg", "/h/media/image-gen/references/h.png", true) := by
  decide

/-- C4 witness: two same-extension sources with identical bytes — the first
call copies once into `<digest>.png`, the second returns the identical pair
and copies nothing. -/
theorem c4_witness :
    store_reference (fun _ => "h") "/h" (FS.mk [("a.png", [7]), ("b.png", [7])]) "a.png"
      = .ok ("h", "/h/media/image-gen/references/h.png",
          FS.mk [("a.png", [7]), ("b.png", [7]), ("/h/media/image-gen/references/h.png", [7])],
          true)
    ∧ store_reference (fun _ => "h") "/h"
        (FS.mk [("a.png", [7]), ("b.png", [7]), ("/h/media/image-gen/references/h.png", [7])])
        "b.png"
      = .ok ("h", "/h/media/image-gen/references/h.png",
          FS.mk [("a.png", [7]), ("b.png", [7]), ("/h/media/image-gen/references/h.png", [7])],
          false) := by
  have h := c4_store_reference_idempotent (fun _ => "h") "/h"
    (FS.mk [("a.png", [7]), ("b.png", [7])]) "a.png" "b.png" [7]
    (by decide) (by decide) (by decide)
  exact ⟨h.1, h.2⟩

/-! ## C7 — permanent delete returns the path exactly once -/

theorem mem_insertTsDesc (g : GenRow) (l : List GenRow) (a : GenRow) :
    a ∈ insertTsDesc g l ↔ a = g ∨ a ∈ l := by
  induction l with
  | nil => simp [insertTsDesc]
  | cons h t ih =>
    unfold insertTsDesc
    split
    · simp
    · simp [ih]
      tauto

theorem mem_sortTsDesc (l : List GenRow) (a : GenRow) : a ∈ sortTsDesc l ↔ a ∈ l := by
  unfold sortTsDesc
  induction l with
  | nil => simp
  | cons h t ih =>
    simp only [List.foldr_cons, mem_insertTsDesc, ih, List.mem_cons]

/-- Every generation returned by `list_generations` is the hydration of a
stored row that satisfies the composed filter. -/
theorem mem_list_generations (db : DB) (f : ListFilter) (x : Generation)
    (hx : x ∈ list_generations db f) :
    ∃ row ∈ db.gens, genMatches db f row = true ∧ x = hydrate db row := by
  simp only [list_generations] at hx
  obtain ⟨row, hrow, hxeq⟩ := List.mem_map.mp hx
  have h1 : row ∈ sortTsDesc ((db.gens.filter (genMatches db f)).dedup) := by
    revert hrow
    cases f.limit with
    | none =>
      cases f.offset with
      | none => intro h; exact h
      | some m => intro h; dsimp only at h; exact List.mem_of_mem_drop h
    | some n =>
      cases f.offset with
      | none =>
        intro h
        dsimp only at h
        split at h
        · exact h
        · exact List.mem_of_mem_take h
      | some m =>
        intro h
        dsimp only at h
        split at h
        · exact List.mem_of_mem_drop h
        · exact List.mem_of_mem_drop (List.mem_of_mem_take h)
  rw [mem_sortTsDesc, List.mem_dedup, List.mem_filter] at h1
  exact ⟨row, h1.1, h1.2, hxeq.symm⟩

/-- C7 counterexample: the claim fails as stated under `PRAGMA foreign_keys =
ON` — a generation still referenced by its completed job (the normal state of
every generation produced through the workflow, until `cleanup_old_jobs`
purges the job) cannot be deleted: the first call returns the FOREIGN KEY
error instead of the stored archive path, leaves the database unchanged, and
the generation still appears in subsequent queries. -/
theorem c7_counterexample :
    (permanently_delete_generation
        { gens := [mkGenRow 1 "t" "d" "i1" none none "m"],
          jobs := [{ mkJobRow 2 "completed" "c" with generation_id := some 1 }] } 1).2
      = .error "FOREIGN KEY constraint failed"
    ∧ (permanently_delete_generation
        { gens := [mkGenRow 1 "t" "d" "i1" none none "m"],
          jobs := [{ mkJobRow 2 "completed" "c" with generation_id := some 1 }] } 1).1
      = { gens := [mkGenRow 1 "t" "d" "i1" none none "m"],
          jobs := [{ mkJobRow 2 "completed" "c" with generation_id := some 1 }] }
    ∧ (get_generation
        { gens := [mkGenRow 1 "t" "d" "i1" none none "m"],
          jobs := [{ mkJobRow 2 "completed" "c" with generation_id := some 1 }] } 1).isSome
      = true := by
  refine ⟨by decide, by decide, by decide⟩

/-- C7 amended: when no job row and no other generation references the id —
no `generation_jobs.generation_id` and no surviving `parent_id` points at it,
e.g. after `cleanup_old_jobs` has purged its finished job — deleting a stored
generation returns its archive path exactly once: the first call succeeds
with the path, a second call with the same id returns no path, and afterwards
the generation is gone from every query — `get_generation` is `none` and no
successful `list_generations` result, under any filter, carries its id. (When
such a reference remains, the DELETE fails and the row survives: see the
counterexample.) -/
theorem c7_permanently_delete_once (db : DB) (id : Int) (r : GenRow)
    (hmem : r ∈ db.gens) (hid : r.id = id)
    (huniq : ∀ g ∈ db.gens, g.id = id → g = r)
    (hnojob : ∀ j ∈ db.jobs, j.generation_id ≠ some id)
    (hnochild : ∀ g ∈ db.gens, g.id ≠ id → g.parent_id ≠ some id) :
    (permanently_delete_generation db id).2 = .ok (some r.image_path)
    ∧ (permanently_delete_generation (permanently_delete_generation db id).1 id).2 = .ok none
    ∧ get_generation (permanently_delete_generation db id).1 id = none
    ∧ ∀ f : ListFilter, ∀ l,
        list_generations_result (permanently_delete_generation db id).1 f = .ok l →
        ∀ x ∈ l, x.id ≠ id := by
  have hfind : db.gens.find? (fun g => g.id == id) = some r := by
    cases hf : db.gens.find? (fun g => g.id == id) with
    | none =>
      have := List.find?_eq_none.mp hf r hmem
      simp [hid] at this
    | some g =>
      have hpred := List.find?_some hf
      have hgmem := List.mem_of_find?_eq_some hf
      have hg : g = r := huniq g hgmem (by simpa using hpred)
      rw [hg]
  have hjob : db.jobs.any (fun j => j.generation_id == some id) = false := by
    rw [List.any_eq_false]
    intro j hj
    simp [hnojob j hj]
  have hchild : db.gens.any (fun g => !(g.id == id) && g.parent_id == some id) = false := by
    rw [List.any_eq_false]
    intro g hg
    by_cases hgi : g.id = id
    · simp [hgi]
    · simp [hgi, hnochild g hg hgi]
  have hguard : (db.gens.any (fun g => g.id == id)
      && (db.jobs.any (fun j => j.generation_id == some id)
          || db.gens.any (fun g => !(g.id == id) && g.parent_id == some id))) = false := by
    rw [hjob, hchild]
    simp
  have hdb₁ : (permanently_delete_generation db id).1
      = { db with
          gens := db.gens.filter (fun g => !(g.id == id)),
          genTags := db.genTags.filter (fun p => !(p.1 == id)),
          genRefs := db.genRefs.filter (fun p => !(p.1 == id)),
          genCollections := db.genCollections.filter (fun p => !(p.1 == id)) } := by
    simp only [permanently_delete_generation]
    rw [hguard]
    rfl
  have hnorowF : (db.gens.filter (fun g => !(g.id == id))).any (fun g => g.id == id)
      = false := by
    rw [List.any_eq_false]
    intro g hg
    have h2 := (List.mem_filter.mp hg).2
    simp only [Bool.not_eq_eq_eq_not, Bool.not_true] at h2
    simp [h2]
  have hfindF : (db.gens.filter (fun g => !(g.id == id))).find? (fun g => g.id == id)
      = none :=
    List.find?_eq_none.mpr (fun g hg => by
      have h2 := (List.mem_filter.mp hg).2
      simp only [Bool.not_eq_eq_eq_not, Bool.not_true] at h2
      simp [h2])
  refine ⟨by simp [permanently_delete_generation, hguard, hfind], ?_, ?_, ?_⟩
  · rw [hdb₁]
    simp [permanently_delete_generation, hnorowF, hfindF]
  · rw [hdb₁]
    simp [get_generation, hfindF]
  · intro f l hok x hx
    rw [hdb₁] at hok
    simp only [list_generations_result] at hok
    split at hok
    · exact Except.noConfusion hok
    · simp only [Except.ok.injEq] at hok
      subst hok
      obtain ⟨row, hrowmem, _, hxeq⟩ := mem_list_generations _ _ _ hx
      dsimp only at hrowmem
      have h2 := (List.mem_filter.mp hrowmem).2
      rw [hxeq]
      show row.id ≠ id
      simp only [Bool.not_eq_eq_eq_not, Bool.not_true] at h2
      simpa using h2

/-- C7 witness: with no job or child generation referencing it, deleting the
only generation returns its path "i1" once, a second delete returns no path,
and reading it back yields nothing. -/
theorem c7_witness :
    (permanently_delete_generation { gens := [mkGenRow 1 "t" "d" "i1" none none "m"] } 1).2
      = .ok (some "i1")
    ∧ (permanently_delete_generation
        (permanently_delete_generation { gens := [mkGenRow 1 "t" "d" "i1" none none "m"] } 1).1
        1).2 = .ok none
    ∧ get_generation
        (permanently_delete_generation { gens := [mkGenRow 1 "t" "d" "i1" none none "m"] } 1).1
        1 = none := by
  have h := c7_permanently_delete_once { gens := [mkGenRow 1 "t" "d" "i1" none none "m"] } 1
    (mkGenRow 1 "t" "d" "i1" none none "m") (by decide) (by decide) (by decide) (by decide)
    (by decide)
  exact ⟨h.1, h.2.1, h.2.2.1⟩

/-! ## C5 — actual provider cost wins over the pre-dispatch estimate -/

theorem get_or_create_tag_gens (db : DB) (t : String) :
    (get_or_create_tag db t).1.gens = db.gens := by
  unfold get_or_create_tag
  split <;> rfl

theorem add_tags_gens (ts : List String) (db : DB) (gid : Int) :
    (add_tags db gid ts).gens = db.gens := by
  induction ts generalizing db with
  | nil => rfl
  | cons t ts ih =>
    unfold add_tags
    rcases hgc : get_or_create_tag db t with ⟨db₁, tid⟩
    have hg : db₁.gens = db.gens := by
      have h := get_or_create_tag_gens db t
      rw [hgc] at h
      exact h
    dsimp only
    split
    · rw [ih, hg]
    · rw [ih]
      exact hg

theorem get_or_create_reference_gens (db : DB) (dbNow h p : String) :
    (get_or_create_reference db dbNow h p).1.gens = db.gens := by
  unfold get_or_create_reference
  split <;> rfl

theorem link_reference_gens (db : DB) (gid rid : Int) :
    (link_reference db gid rid).gens = db.gens := by
  unfold link_reference
  split <;> rfl

theorem linkRefs_gens (sr : String → Except String (String × String)) (ps : List String) :
    ∀ (db : DB) (dbNow : String) (gid : Int), (linkRefs sr db dbNow gid ps).1.gens = db.gens := by
  induction ps with
  | nil => intro db dbNow gid; rfl
  | cons p ps ih =>
    intro db dbNow gid
    unfold linkRefs
    cases hsp : sr p with
    | error e => rfl
    | ok hp =>
      obtain ⟨hsh, pth⟩ := hp
      dsimp only
      rcases hgc : get_or_create_reference db dbNow hsh pth with ⟨db₁, rid⟩
      have hg : db₁.gens = db.gens := by
        have h := get_or_create_reference_gens db dbNow hsh pth
        rw [hgc] at h
        exact h
      dsimp only
      rw [ih, link_reference_gens, hg]

/-- The cost column `complete_generation` persists: when the call succeeds,
the returned Generation's `cost_estimate_usd` is the provider-reported actual
cost when present, else the estimate it was handed. -/
theorem complete_generation_cost (deu : Char → List Nat)
    (si : List Nat → String → String → String →
      Except String (String × Option String × Int × Int × Int))
    (sr : String → Except String (String × String)) (db : DB)
    (date timestamp dbNow completedAt : String) (job_id : Int)
    (prompt model provider : String) (tags : List String)
    (reference_paths : List String) (r : GenerationResult) (est : Option Rat)
    (neg : Option String) (gid : Int) (g : Generation)
    (hfresh : ∀ row ∈ db.gens, row.id ≠ db.nextGenId)
    (hok : (complete_generation deu si sr db date timestamp dbNow completedAt job_id
      prompt model provider tags reference_paths r est neg).2 = .ok (gid, g)) :
    g.cost_estimate_usd = (match r.cost_usd with
      | some c => some c
      | none => est) := by
  cases hsave : si r.image_data date (bytesToStr (slugify_prompt deu prompt.data)) timestamp with
  | error e =>
    simp only [complete_generation, hsave] at hok
    exact Except.noConfusion hok
  | ok out =>
    obtain ⟨image_path, thumb_path, width, height, file_size⟩ := out
    simp only [complete_generation, hsave, insert_generation] at hok
    split at hok
    · exact Except.noConfusion hok
    · rename_i db₃ u heq
      split at hok
      · rename_i gg hget
        simp only [Except.ok.injEq, Prod.mk.injEq] at hok
        obtain ⟨hgid, hgg⟩ := hok
        subst hgg
        have h1 := congrArg (fun x => x.1.gens) heq
        dsimp only at h1
        rw [linkRefs_gens] at h1
        have hdb₃gens0 : db₃.gens = db.gens ++
            [⟨db.nextGenId, bytesToStr (slugify_prompt deu prompt.data), prompt, model,
              provider, timestamp, date, image_path, thumb_path,
              some r.generation_time_seconds,
              (match r.cost_usd with | some c => some c | none => est),
              r.seed, some width, some height, some file_size, none, false, dbNow,
              none, none, neg⟩] := by
          rw [← h1]
          split
          · rfl
          · rw [add_tags_gens]
        obtain ⟨G, hdb₃gens, hGcost, hGid⟩ :
            ∃ G : GenRow, db₃.gens = db.gens ++ [G]
              ∧ G.cost_estimate_usd = (match r.cost_usd with | some c => some c | none => est)
              ∧ G.id = db.nextGenId :=
          ⟨_, hdb₃gens0, rfl, rfl⟩
        have hfind : (update_job_completed db₃ completedAt job_id db.nextGenId).gens.find?
            (fun x => x.id == db.nextGenId) = some G := by
          show db₃.gens.find? _ = _
          rw [hdb₃gens, List.find?_append,
            List.find?_eq_none.mpr (fun x hx => by simp [hfresh x hx])]
          simp [hGid]
        simp only [get_generation, hfind, Option.map_some', Option.some.injEq] at hget
        rw [← hget]
        show G.cost_estimate_usd = _
        exact hGcost
      · exact Except.noConfusion hok

/-- C5: on the success path of `perform_generation`, the Generation the caller
receives carries as its cost the provider-reported actual cost when present
and otherwise the pre-dispatch estimate (the static `cost_per_image` of the
model, as resolved by `prepare_generation` through `ModelInfo::find`) — in
particular, when the provider reports no cost and the model is known, the
recorded `cost_estimate_usd` is exactly the model's static per-image
estimate. -/
theorem c5_actual_cost_wins (deu : Char → List Nat)
    (si : List Nat → String → String → String →
      Except String (String × Option String × Int × Int × Int))
    (sr : String → Except String (String × String)) (r : GenerationResult) (db : DB)
    (createdAt startedAt failedAt date timestamp dbNow completedAt : String)
    (prompt model : String) (tags : List String) (reference_paths : List String)
    (source : JobSource) (negative_prompt : Option String) (gid : Int) (g : Generation)
    (hfresh : ∀ row ∈ db.gens, row.id ≠ db.nextGenId)
    (hok : (perform_generation deu si sr (.ok r) db createdAt startedAt failedAt date
      timestamp dbNow completedAt prompt model tags reference_paths source
      negative_prompt).2 = .ok (gid, g)) :
    g.cost_estimate_usd = (match r.cost_usd with
      | some c => some c
      | none => (ModelInfo.find model).map (fun m => m.cost_per_image))
    ∧ (r.cost_usd = none → ∀ mi, ModelInfo.find model = some mi →
        g.cost_estimate_usd = some mi.cost_per_image) := by
  have hok' : (complete_generation deu si sr
      (prepare_generation db createdAt startedAt model prompt tags source
        (reference_paths.length : Int)).1
      date timestamp dbNow completedAt
      (prepare_generation db createdAt startedAt model prompt tags source
        (reference_paths.length : Int)).2.1
      prompt model
      (prepare_generation db createdAt startedAt model prompt tags source
        (reference_paths.length : Int)).2.2.2
      tags reference_paths r
      (prepare_generation db createdAt startedAt model prompt tags source
        (reference_paths.length : Int)).2.2.1
      negative_prompt).2 = .ok (gid, g) := hok
  have hest : (prepare_generation db createdAt startedAt model prompt tags source
      (reference_paths.length : Int)).2.2.1
      = (ModelInfo.find model).map (fun m => m.cost_per_image) := rfl
  have hmain := complete_generation_cost deu si sr
    (prepare_generation db createdAt startedAt model prompt tags source
      (reference_paths.length : Int)).1
    date timestamp dbNow completedAt
    (prepare_generation db createdAt startedAt model prompt tags source
      (reference_paths.length : Int)).2.1
    prompt model
    (prepare_generation db createdAt startedAt model prompt tags source
      (reference_paths.length : Int)).2.2.2
    tags reference_paths r
    (prepare_generation db createdAt startedAt model prompt tags source
      (reference_paths.length : Int)).2.2.1
    negative_prompt gid g hfresh hok'
  rw [hest] at hmain
  refine ⟨hmain, ?_⟩
  intro hnone mi hmi
  simp [hmain, hnone, hmi]

/-- C5 witness: the concrete scenario — model "gemini-flash", seed "42",
duration 3.2 s, provider cost absent — yields a Generation whose cost column
holds the model's static estimate 0.039 USD. -/
theorem c5_witness :
    (perform_generation (fun _ => [45]) (fun _ _ _ _ => .ok ("/p.png", none, 1024, 1024, 3))
      (fun _ => .error "unused")
      (.ok { image_data := [], seed := some "42", generation_time_seconds := 16/5,
             cost_usd := none })
      {} "c" "s" "f" "2024-01-01" "2024-01-01T00:00:00" "n" "co"
      "a red fox in snow" "gemini-flash" [] [] .cli none).2 = .ok (1, c5WitnessGen)
    ∧ c5WitnessGen.cost_estimate_usd = some (39/1000) := by
  have hok : (perform_generation (fun _ => [45])
      (fun _ _ _ _ => .ok ("/p.png", none, 1024, 1024, 3))
      (fun _ => .error "unused")
      (.ok { image_data := [], seed := some "42", generation_time_seconds := 16/5,
             cost_usd := none })
      {} "c" "s" "f" "2024-01-01" "2024-01-01T00:00:00" "n" "co"
      "a red fox in snow" "gemini-flash" [] [] .cli none).2 = .ok (1, c5WitnessGen) := by
    rfl
  refine ⟨hok, ?_⟩
  have h := c5_actual_cost_wins (fun _ => [45])
    (fun _ _ _ _ => .ok ("/p.png", none, 1024, 1024, 3)) (fun _ => .error "unused")
    { image_data := [], seed := some "42", generation_time_seconds := 16/5, cost_usd := none }
    {} "c" "s" "f" "2024-01-01" "2024-01-01T00:00:00" "n" "co"
    "a red fox in snow" "gemini-flash" [] [] .cli none 1 c5WitnessGen (by decide) hok
  exact h.2 rfl _ rfl

/-! ## C3 — AND semantics of the multi-tag filter -/

/-- C3 counterexample: the claim fails as stated for a tag list with a
duplicate. The single generation is not trashed and carries every tag in the
list ["a", "a"], yet the filter returns nothing — the HAVING clause compares
COUNT(DISTINCT name) = 1 against the list length 2. -/
theorem c3_counterexample :
    ((["a", "a"] : List String).all (fun t =>
      (get_tags_for_generation
        { gens := [mkGenRow 1 "t" "d" "i" none none "m"], tags := [⟨1, "a"⟩],
          genTags := [(1, 1)] } 1).contains t)) = true
    ∧ (mkGenRow 1 "t" "d" "i" none none "m").trashed_at = none
    ∧ list_generations
        { gens := [mkGenRow 1 "t" "d" "i" none none "m"], tags := [⟨1, "a"⟩],
          genTags := [(1, 1)] } { tags := some ["a", "a"] } = [] := by
  refine ⟨by decide, rfl, by rfl⟩

theorem dedup_filter_length_iff (M L : List String) (hnd : L.Nodup) :
    ((M.filter (fun n => L.contains n)).dedup.length = L.length) ↔ ∀ t ∈ L, t ∈ M := by
  have hDnd : (M.filter (fun n => L.contains n)).dedup.Nodup := List.nodup_dedup _
  have hDsub : (M.filter (fun n => L.contains n)).dedup ⊆ L := by
    intro x hx
    have hx' := (List.mem_filter.mp (List.mem_dedup.mp hx)).2
    simpa using hx'
  constructor
  · intro hlen t htL
    have hcard : (M.filter (fun n => L.contains n)).dedup.toFinset.card = L.toFinset.card := by
      rw [List.toFinset_card_of_nodup hDnd, List.toFinset_card_of_nodup hnd, hlen]
    have hsubF : (M.filter (fun n => L.contains n)).dedup.toFinset ⊆ L.toFinset :=
      fun x hx => List.mem_toFinset.mpr (hDsub (List.mem_toFinset.mp hx))
    have heq : (M.filter (fun n => L.contains n)).dedup.toFinset = L.toFinset :=
      Finset.eq_of_subset_of_card_le hsubF hcard.symm.le
    have htD : t ∈ (M.filter (fun n => L.contains n)).dedup :=
      List.mem_toFinset.mp (heq ▸ List.mem_toFinset.mpr htL)
    exact (List.mem_filter.mp (List.mem_dedup.mp htD)).1
  · intro hall
    have hLsubD : L ⊆ (M.filter (fun n => L.contains n)).dedup := fun t ht =>
      List.mem_dedup.mpr (List.mem_filter.mpr ⟨hall t ht, by simpa using ht⟩)
    have hDsubF : (M.filter (fun n => L.contains n)).dedup.toFinset ⊆ L.toFinset :=
      fun x hx => List.mem_toFinset.mpr (hDsub (List.mem_toFinset.mp hx))
    have hLsubF : L.toFinset ⊆ (M.filter (fun n => L.contains n)).dedup.toFinset :=
      fun x hx => List.mem_toFinset.mpr (hLsubD (List.mem_toFinset.mp hx))
    have heq : (M.filter (fun n => L.contains n)).dedup.toFinset = L.toFinset :=
      Finset.Subset.antisymm hDsubF hLsubF
    rw [← List.toFinset_card_of_nodup hDnd, ← List.toFinset_card_of_nodup hnd, heq]

/-- Membership introduction for `list_generations` when no limit or offset is
set. -/
theorem mem_list_generations_intro (db : DB) (f : ListFilter) (row : GenRow)
    (hrow : row ∈ db.gens) (hm : genMatches db f row = true)
    (hl : f.limit = none) (ho : f.offset = none) :
    hydrate db row ∈ list_generations db f := by
  simp only [list_generations, hl, ho]
  exact List.mem_map_of_mem _
    ((mem_sortTsDesc _ _).mpr (List.mem_dedup.mpr (List.mem_filter.mpr ⟨hrow, hm⟩)))

/-- C3 amended: for every *duplicate-free* non-empty tag list L, the
generations returned by a filter requiring L are exactly the non-trashed
generations that carry every listed tag (stated per id). In particular a
generation carrying tags {a,b,c} is included by a filter {a,b} and excluded by
{a,b,d}; with duplicates in the list, the count-equals-cardinality test also
excludes generations that carry every listed tag (see the counterexample). -/
theorem c3_and_filter_nodup (db : DB) (L : List String) (hne : L ≠ []) (hnd : L.Nodup)
    (gid : Int) :
    (∃ x ∈ list_generations db { tags := some L }, x.id = gid)
    ↔ ∃ row ∈ db.gens, row.id = gid ∧ row.trashed_at = none
        ∧ ∀ t ∈ L, t ∈ get_tags_for_generation db row.id := by
  have hLne : L.isEmpty = false := by
    cases L with
    | nil => exact absurd rfl hne
    | cons a as => rfl
  have hmatch : ∀ row : GenRow, genMatches db { tags := some L } row
      = (row.trashed_at.isNone
        && (((get_tags_for_generation db row.id).filter (fun n => L.contains n)).dedup.length
            == L.length)) := by
    intro row
    simp [genMatches, hLne]
  constructor
  · rintro ⟨x, hxmem, hxid⟩
    obtain ⟨row, hrowmem, hrowmatch, hxeq⟩ := mem_list_generations _ _ _ hxmem
    rw [hmatch row, Bool.and_eq_true] at hrowmatch
    obtain ⟨htr, hcnt⟩ := hrowmatch
    refine ⟨row, hrowmem, ?_, ?_, ?_⟩
    · rw [← hxid, hxeq]
      rfl
    · simpa [Option.isNone_iff_eq_none] using htr
    · exact (dedup_filter_length_iff _ L hnd).mp (by simpa using hcnt)
  · rintro ⟨row, hrowmem, hrowid, hrowtr, hcarry⟩
    refine ⟨hydrate db row, ?_, hrowid⟩
    refine mem_list_generations_intro db _ row hrowmem ?_ rfl rfl
    rw [hmatch row, Bool.and_eq_true]
    exact ⟨by simp [hrowtr], by
      simpa using (dedup_filter_length_iff (get_tags_for_generation db row.id) L hnd).mpr hcarry⟩

/-- C3 witness: a generation carrying tags {a,b,c} is returned by the filter
{a,b} and not by the filter {a,b,d}. -/
theorem c3_witness :
    ((list_generations
        { gens := [mkGenRow 1 "t" "d" "i" none none "m"],
          tags := [⟨1, "a"⟩, ⟨2, "b"⟩, ⟨3, "c"⟩, ⟨4, "d"⟩],
          genTags := [(1, 1), (1, 2), (1, 3)] }
        { tags := some ["a", "b"] }).map (fun x => x.id)).contains 1 = true
    ∧ ((list_generations
        { gens := [mkGenRow 1 "t" "d" "i" none none "m"],
          tags := [⟨1, "a"⟩, ⟨2, "b"⟩, ⟨3, "c"⟩, ⟨4, "d"⟩],
          genTags := [(1, 1), (1, 2), (1, 3)] }
        { tags := some ["a", "b", "d"] }).map (fun x => x.id)).contains 1 = false := by
  constructor
  · have h := (c3_and_filter_nodup
      { gens := [mkGenRow 1 "t" "d" "i" none none "m"],
        tags := [⟨1, "a"⟩, ⟨2, "b"⟩, ⟨3, "c"⟩, ⟨4, "d"⟩],
        genTags := [(1, 1), (1, 2), (1, 3)] }
      ["a", "b"] (by decide) (by decide) 1).mpr
      ⟨mkGenRow 1 "t" "d" "i" none none "m", by decide, rfl, rfl, by decide⟩
    obtain ⟨x, hx, hxid⟩ := h
    have : (1 : Int) ∈ (list_generations
        { gens := [mkGenRow 1 "t" "d" "i" none none "m"],
          tags := [⟨1, "a"⟩, ⟨2, "b"⟩, ⟨3, "c"⟩, ⟨4, "d"⟩],
          genTags := [(1, 1), (1, 2), (1, 3)] }
        { tags := some ["a", "b"] }).map (fun x => x.id) :=
      List.mem_map.mpr ⟨x, hx, hxid⟩
    simpa using this
  · have h := (c3_and_filter_nodup
      { gens := [mkGenRow 1 "t" "d" "i" none none "m"],
        tags := [⟨1, "a"⟩, ⟨2, "b"⟩, ⟨3, "c"⟩, ⟨4, "d"⟩],
        genTags := [(1, 1), (1, 2), (1, 3)] }
      ["a", "b", "d"] (by decide) (by decide) 1)
    by_contra hc
    simp only [Bool.not_eq_false] at hc
    have hmem : (1 : Int) ∈ (list_generations
        { gens := [mkGenRow 1 "t" "d" "i" none none "m"],
          tags := [⟨1, "a"⟩, ⟨2, "b"⟩, ⟨3, "c"⟩, ⟨4, "d"⟩],
          genTags := [(1, 1), (1, 2), (1, 3)] }
        { tags := some ["a", "b", "d"] }).map (fun x => x.id) := by
      simpa using hc
    obtain ⟨x, hx, hxid⟩ := List.mem_map.mp hmem
    obtain ⟨row, hrowmem, hrowid, hrowtr, hcarry⟩ := h.mp ⟨x, hx, hxid⟩
    have hrow : row = mkGenRow 1 "t" "d" "i" none none "m" := by
      simpa using hrowmem
    have hd := hcarry "d" (by decide)
    rw [hrow] at hd
    revert hd
    decide
